import Mathlib

/-!
Verification of the multi-agent travel-planning system.

A shallow embedding, in Lean 4, of the decision-making kernels of the
travel-agent repository, together with theorems checking the system's
documented behaviour against the code.

Modelling conventions:
* Python `dict`s keyed by strings are association lists
  (`List (String × α)`) read through `List.lookup` (first binding wins)
  and written through `setKey` (replace the first binding, else append) —
  the insertion-order semantics of a Python dict.
* Python `float` amounts (budgets, costs, durations) are rationals (`Rat`);
  the claims under study only involve values on which float arithmetic is
  exact, and none depends on rounding behaviour.
* A Python function that can raise an exception is a function into
  `Except String _` (the exception's kind is recorded as a string);
  one that returns `None`-or-a-value is a function into `Option _`.
* Wall-clock inputs (`datetime.now()` minute keys, arrival datetimes) are
  explicit parameters.
-/

/-- Python `m[k] = v` on a dict modelled as an association list — replaces
the first binding of `k`, else appends `(k, v)`. -/
def setKey {α : Type} : List (String × α) → String → α → List (String × α)
  | [], k, v => [(k, v)]
  | (k', v') :: rest, k, v =>
      if k' == k then (k, v) :: rest else (k', v') :: setKey rest k v

theorem lookup_setKey {α : Type} (m : List (String × α)) (k k' : String) (v : α) :
    List.lookup k' (setKey m k v) = if k' == k then some v else List.lookup k' m := by
  induction m with
  | nil =>
      by_cases h' : k' = k
      · simp [setKey, List.lookup, h']
      · have hb : (k' == k) = false := by simp [h']
        simp [setKey, List.lookup, hb, h']
  | cons p rest ih =>
      obtain ⟨k₀, v₀⟩ := p
      by_cases h : k₀ = k
      · subst h
        by_cases h' : k' = k₀
        · simp [setKey, List.lookup, h']
        · have hb : (k' == k₀) = false := by simp [h']
          simp [setKey, List.lookup, hb, h']
      · have hbeq : (k₀ == k) = false := by simp [h]
        by_cases h' : k' = k₀
        · subst h'
          have hb : (k' == k) = false := by simp [h]
          simp [setKey, List.lookup, hbeq, hb, h]
        · have hb : (k' == k₀) = false := by simp [h']
          simp [setKey, List.lookup, hbeq, hb, ih]

/-! ## Security layer: per-client rate limiter (`src/security/auth.py`)

`SecurityManager.rate_limits` maps a client id to a dict from minute keys
(strings `"YYYY-MM-DD-HH-MM"`) to counts.  `check_rate_limit` is modelled as
a state transformer; the current minute key (derived from `datetime.now()`
in the source) is an explicit argument. -/

/-- One client's per-minute request counters. -/
abbrev MinuteCounts := List (String × Nat)

/-- The `SecurityManager.rate_limits` table. -/
abbrev RateLimits := List (String × MinuteCounts)

/-- Model of `SecurityManager.check_rate_limit(client_id, limit)` at the minute
`minuteKey`: returns the allow/deny verdict and the updated table.

Source:
```
if client_id not in self.rate_limits: self.rate_limits[client_id] = {}
if minute_key not in self.rate_limits[client_id]:
    self.rate_limits[client_id] = {minute_key: 1}; return True
self.rate_limits[client_id][minute_key] += 1
return self.rate_limits[client_id][minute_key] <= limit
```
-/
def check_rate_limit (st : RateLimits) (clientId minuteKey : String) (limit : Nat) :
    Bool × RateLimits :=
  let clientMap := (List.lookup clientId st).getD []
  match List.lookup minuteKey clientMap with
  | none => (true, setKey st clientId [(minuteKey, 1)])
  | some n =>
      let count := n + 1
      (decide (count ≤ limit), setKey st clientId (setKey clientMap minuteKey count))

/-- Runs `n` successive `check_rate_limit` calls by the same client in the same
minute bucket, listing the verdicts in order. -/
def rateCallResults (st : RateLimits) (clientId minuteKey : String) (limit : Nat) :
    Nat → List Bool
  | 0 => []
  | n + 1 =>
      let r := check_rate_limit st clientId minuteKey limit
      r.1 :: rateCallResults r.2 clientId minuteKey limit n

/-! ## Hotel specialist: check-in time validation (`src/agents/hotel/tools.py`) -/

/-- The hour/minute components of the requested arrival `datetime`. -/
structure ArrivalTime where
  hour : Nat
  minute : Nat
deriving DecidableEq

/-- Model of `HotelValidator.validate_checkin_time(hotel_checkin, arrival_time)`.

Source:
```
standard_checkin_hour = 15
if arrival_time.hour > standard_checkin_hour + 6:  # After 9 PM
    return False, "Arrival too late for standard check-in"
return True, None
```
The `hotel_checkin` parameter is accepted but never read by the source. -/
def validate_checkin_time (_hotelCheckin : String) (arrival : ArrivalTime) :
    Bool × Option String :=
  let standard_checkin_hour := 15
  if arrival.hour > standard_checkin_hour + 6 then
    (false, some "Arrival too late for standard check-in")
  else
    (true, none)

/-! ## Orchestrator: dependency manager (`src/agents/orchestrator/tools.py`) -/

/-- Model of `DependencyManager.dependency_graph`: the prerequisites of each agent;
any name outside the table has no prerequisites (`dict.get(agent, set())`). -/
def dependencyGraph : String → List String
  | "activity" => ["hotel"]
  | "itinerary" => ["hotel", "transport", "activity"]
  | _ => []

/-- The loop body of `DependencyManager.validate_completion_order`, with the
`completed` set threaded explicitly.  On the first agent whose prerequisites
are not all completed it returns `(false, some (agent, missing))`; the source
formats `missing` into the message
`f"{agent} completed before dependencies: {missing}"`. -/
def validateFrom (completed : List String) :
    List String → Bool × Option (String × List String)
  | [] => (true, none)
  | agent :: rest =>
      let missing := (dependencyGraph agent).filter (fun d => !(completed.contains d))
      if missing.isEmpty then validateFrom (completed ++ [agent]) rest
      else (false, some (agent, missing))

/-- Model of `DependencyManager.validate_completion_order(completion_order)`. -/
def validate_completion_order (order : List String) :
    Bool × Option (String × List String) :=
  validateFrom [] order

/-! ## Budget specialist: `validate_expense` (`src/agents/budget/budget_agent_a2a.py`)

`BUDGET_TRACKER` maps a session id to a budget entry; `validate_expense`
reads the hard-wired session `"default_session"`, creating a default entry
when absent, and never writes to an existing entry.  String outputs that
merely interpolate the numeric fields (the `recommendation` sentence and the
category `warning` message) are represented by their numeric content; the
`currency` and `description` arguments feed only those sentences and are
omitted. -/

/-- One `BUDGET_TRACKER` entry. -/
structure BudgetEntry where
  total_budget : Rat
  spent : Rat
  breakdown : List (String × Rat)
  currency : String
deriving DecidableEq

/-- The entry `validate_expense` creates for an unknown session. -/
def defaultBudgetEntry : BudgetEntry :=
  { total_budget := 5000
    spent := 0
    breakdown := [("hotel", 0), ("transport", 0), ("activity", 0), ("other", 0)]
    currency := "USD" }

/-- Model of `budget_allocation.get(expense_type, 0.15)`: the recommended share of the
total budget per category. -/
def budget_allocation : String → Rat
  | "hotel" => 35 / 100
  | "transport" => 30 / 100
  | "activity" => 20 / 100
  | "other" => 15 / 100
  | _ => 15 / 100

/-- The JSON payload `validate_expense` returns: either the rejection record
or the approval record (field names as in the source). -/
inductive ValidationResult where
  | rejected (reason : String) (remaining_budget requested_amount : Rat)
  | approvedExpense (remaining_budget category_budget category_spent : Rat)
      (warningPresent : Bool) (percentage_used : Rat)
deriving DecidableEq

/-- Returns `True` on the `"approved": true` payload. -/
def ValidationResult.approvedFlag : ValidationResult → Bool
  | .rejected _ _ _ => false
  | .approvedExpense _ _ _ _ _ => true

/-- The `"reason"` field (present only on rejection). -/
def ValidationResult.reasonField : ValidationResult → Option String
  | .rejected r _ _ => some r
  | .approvedExpense _ _ _ _ _ => none

/-- The `"remaining_budget"` field of either payload. -/
def ValidationResult.remainingBudgetField : ValidationResult → Rat
  | .rejected _ r _ => r
  | .approvedExpense r _ _ _ _ => r

/-- Model of `validate_expense(expense_type, amount, currency, description)` against
the tracker table, returning the payload and the (possibly extended) table.

Source: looks up `"default_session"` (installing the 5000-total default when
missing), computes `remaining = total_budget - spent`, rejects with
`"Insufficient budget"` when `amount > remaining`; otherwise approves with
`remaining - amount`, the category allocation figures, a warning exactly when
`category_spent + amount > category_budget`, and
`percentage_used = (spent + amount) / total_budget * 100`.  (In Python a
zero `total_budget` makes that division raise `ZeroDivisionError`; theorems
about the approval payload therefore assume `0 < total_budget`.) -/
def validate_expense (tracker : List (String × BudgetEntry))
    (expense_type : String) (amount : Rat) :
    ValidationResult × List (String × BudgetEntry) :=
  let session_id := "default_session"
  let tracker' :=
    if (List.lookup session_id tracker).isSome then tracker
    else setKey tracker session_id defaultBudgetEntry
  let budget_data := (List.lookup session_id tracker').getD defaultBudgetEntry
  let remaining := budget_data.total_budget - budget_data.spent
  if amount > remaining then
    (.rejected "Insufficient budget" remaining amount, tracker')
  else
    let category_budget := budget_data.total_budget * budget_allocation expense_type
    let category_spent := (List.lookup expense_type budget_data.breakdown).getD 0
    let warningPresent := decide (category_spent + amount > category_budget)
    let percentage_used := (budget_data.spent + amount) / budget_data.total_budget * 100
    (.approvedExpense (remaining - amount) category_budget category_spent
        warningPresent percentage_used,
      tracker')

/-! ## Orchestrator: conflict resolver (`src/agents/orchestrator/tools.py`)

`ConflictInfo` is the pydantic model of `src/shared/models.py`; the
`suggested_resolutions` entries are free-form dicts, modelled by the fields
the resolver reads through `.get` (absent key ↦ `none`).  The resolver's
`current_bookings` and `preferences` parameters are read by none of the
strategies and are omitted.  A Python `IndexError` (indexing `[0]` into an
empty list) is an `Except.error`. -/

/-- A `suggested_resolutions` record, reduced to the keys the resolver reads. -/
structure SuggestedResolution where
  reduced_budget : Option Rat := none
  arrival_time : Option String := none
  alternative_time : Option String := none
deriving DecidableEq

/-- Model of `shared.models.ConflictInfo`. -/
structure ConflictInfo where
  conflict_type : String
  affected_agents : List String
  description : String
  suggested_resolutions : List SuggestedResolution
  severity : Nat := 5
deriving DecidableEq

/-- One per-agent instruction inside a resolution plan. -/
structure AgentInstruction where
  agent : String
  action : String
  max_budget : Option Rat := none
  arrival_time : Option String := none
  alternative_time : Option String := none
  max_distance_km : Option Rat := none
  constraints : Option SuggestedResolution := none
deriving DecidableEq

/-- A strategy's return value (`can_resolve`, `instructions`, `summary`);
`instructions` and `summary` default to `{}` / `""` as `resolution.get` does. -/
structure InternalResolution where
  can_resolve : Bool
  instructions : List AgentInstruction := []
  summary : String := ""
deriving DecidableEq

/-- The dict `ConflictResolver.resolve_conflict` returns. -/
structure ResolutionOutcome where
  can_resolve_automatically : Bool
  instructions : List AgentInstruction
  summary : String
  requires_human : Bool
deriving DecidableEq

/-- Python `sub in s` on lowered descriptions: substring containment. -/
def strContains (s sub : String) : Bool := decide (sub.data <:+: s.data)

/-- Model of `ConflictResolver._resolve_timing_conflict`. -/
def resolveTimingConflict (conflict : ConflictInfo) : Except String InternalResolution :=
  if strContains conflict.description.toLower "late_arrival" then
    match conflict.suggested_resolutions with
    | [] => .error "IndexError: suggested_resolutions"
    | r :: _ =>
        .ok { can_resolve := true
              instructions := [{ agent := "hotel", action := "request_late_checkin"
                                 arrival_time := r.arrival_time }]
              summary := "Requesting late check-in from hotel" }
  else if strContains conflict.description.toLower "overlap" then
    match conflict.suggested_resolutions with
    | [] => .error "IndexError: suggested_resolutions"
    | r :: _ =>
        .ok { can_resolve := true
              instructions := [{ agent := "activity", action := "reschedule"
                                 alternative_time := r.alternative_time }]
              summary := "Rescheduling activity to avoid overlap" }
  else
    .ok { can_resolve := false
          summary := "Cannot automatically resolve timing conflict" }

/-- Model of `ConflictResolver._resolve_budget_conflict`: reads
`conflict.affected_agents[0]`, then builds the plan around
`conflict.suggested_resolutions[0].get("reduced_budget")`; either indexing
raises `IndexError` on an empty list. -/
def resolveBudgetConflict (conflict : ConflictInfo) : Except String InternalResolution :=
  match conflict.affected_agents with
  | [] => .error "IndexError: affected_agents"
  | affected_agent :: _ =>
      match conflict.suggested_resolutions with
      | [] => .error "IndexError: suggested_resolutions"
      | r :: _ =>
          .ok { can_resolve := true
                instructions := [{ agent := affected_agent
                                   action := "find_cheaper_alternative"
                                   max_budget := r.reduced_budget }]
                summary := "Requesting cheaper options from " ++ affected_agent }

/-- Model of `ConflictResolver._resolve_availability_conflict`. -/
def resolveAvailabilityConflict (conflict : ConflictInfo) :
    Except String InternalResolution :=
  match conflict.affected_agents with
  | [] => .error "IndexError: affected_agents"
  | affected_agent :: _ =>
      match conflict.suggested_resolutions with
      | [] => .error "IndexError: suggested_resolutions"
      | r :: _ =>
          .ok { can_resolve := true
                instructions := [{ agent := affected_agent
                                   action := "find_alternative"
                                   constraints := some r }]
                summary := "Searching for alternative options" }

/-- Model of `ConflictResolver._resolve_location_conflict`. -/
def resolveLocationConflict (conflict : ConflictInfo) :
    Except String InternalResolution :=
  if strContains conflict.description.toLower "distance" then
    .ok { can_resolve := true
          instructions := [{ agent := "activity", action := "find_closer_alternative"
                             max_distance_km := some 10 }]
          summary := "Finding activities closer to accommodation" }
  else
    .ok { can_resolve := false
          summary := "Cannot automatically resolve location conflict" }

/-- Model of `ConflictResolver._default_resolution`. -/
def defaultResolution (conflict : ConflictInfo) : Except String InternalResolution :=
  .ok { can_resolve := false
        summary := "No automatic resolution available for " ++ conflict.conflict_type }

/-- Model of `ConflictResolver.resolve_conflict`: dispatches on `conflict_type` via
`resolution_strategies.get(conflict_type, default)` and wraps the strategy's
answer; a strategy's exception propagates to the caller untouched. -/
def resolve_conflict (conflict : ConflictInfo) : Except String ResolutionOutcome := do
  let resolution ←
    match conflict.conflict_type with
    | "timing" => resolveTimingConflict conflict
    | "budget" => resolveBudgetConflict conflict
    | "availability" => resolveAvailabilityConflict conflict
    | "location" => resolveLocationConflict conflict
    | _ => defaultResolution conflict
  pure { can_resolve_automatically := resolution.can_resolve
         instructions := resolution.instructions
         summary := resolution.summary
         requires_human := !resolution.can_resolve }

/-! ## Session-state store (`src/shared/state.py`)

`StateManager` caches one mutable `TravelState` dict per session; `get_state`
returns that same object, so the state a mutator edits in place and the state
`update_state` then reads are one object.  `update_state`'s merge rule is:
dict-valued fields are shallow-merged (`dict.update`), list-valued fields are
appended (`list.extend`), scalars replaced.  Consequently `add_conflict` —
which first appends to the cached `conflicts` list in place and then passes
that very list to `update_state` — extends the list with itself, while
`add_booking` — which passes the cached `bookings` dict and the already-added
scalar `budget_spent` — is unaffected (`d.update(d)` is the identity,
scalar replacement idempotent).  The embedding makes the aliasing explicit.

Fields of `TravelState` that no claim touches (preferences, statuses,
history, timestamps — `updated_at` is refreshed from the wall clock) are
omitted. -/

/-- One booking dict as `add_booking` reads it: `total_cost`, falling back to
`cost`, falling back to `0`. -/
structure BookingRecord where
  name : String := ""
  total_cost : Option Rat := none
  cost : Option Rat := none
deriving DecidableEq

/-- The claim-relevant slice of `TravelState`. -/
structure TravelState where
  session_id : String
  budget_limit : Rat
  budget_spent : Rat
  bookings : List (String × List BookingRecord)
  conflicts : List ConflictInfo
deriving DecidableEq

/-- Model of `StateManager.create_session` initial state (budget from the
preferences' `budget`). -/
def createSessionState (sessionId : String) (budget : Rat) : TravelState :=
  { session_id := sessionId
    budget_limit := budget
    budget_spent := 0
    bookings := [("hotels", []), ("transport", []), ("activities", [])]
    conflicts := [] }

/-- Model of `dict.update(new)` on the bookings map: every binding of `new` written
into `old` in order. -/
def mergeBookingsDict (old new : List (String × List BookingRecord)) :
    List (String × List BookingRecord) :=
  new.foldl (fun acc kv => setKey acc kv.1 kv.2) old

/-- Model of `update_state(session_id, {"conflicts": v})`: `conflicts` holds a list,
so the merge rule extends the stored list with `v`. -/
def update_state_conflicts (st : TravelState) (v : List ConflictInfo) : TravelState :=
  { st with conflicts := st.conflicts ++ v }

/-- Model of `update_state(session_id, {"bookings": bk, "budget_spent": sp})`:
`bookings` holds a dict, so it is shallow-merged; `budget_spent` is a scalar,
so it is replaced. -/
def update_state_bookings_spent (st : TravelState)
    (bk : List (String × List BookingRecord)) (sp : Rat) : TravelState :=
  { st with bookings := mergeBookingsDict st.bookings bk, budget_spent := sp }

/-- Model of `StateManager.add_conflict(session_id, conflict)`:

```
state["conflicts"].append(conflict.dict())
await self.update_state(session_id, {"conflicts": state["conflicts"]})
```

The appended-to list and the update value are the same object, so
`update_state`'s `extend` receives the already-extended list. -/
def add_conflict (st : TravelState) (conflict : ConflictInfo) : TravelState :=
  let appended := st.conflicts ++ [conflict]
  update_state_conflicts { st with conflicts := appended } appended

/-- Model of `StateManager.add_booking(session_id, booking_type, booking)`:

```
if booking_type not in state["bookings"]: state["bookings"][booking_type] = []
state["bookings"][booking_type].append(booking)
state["budget_spent"] += booking.get("total_cost", booking.get("cost", 0))
await self.update_state(session_id, {"bookings": state["bookings"],
                                     "budget_spent": state["budget_spent"]})
```
-/
def add_booking (st : TravelState) (booking_type : String) (booking : BookingRecord) :
    TravelState :=
  let withKey :=
    if (List.lookup booking_type st.bookings).isSome then st.bookings
    else setKey st.bookings booking_type []
  let bk := setKey withKey booking_type
    (((List.lookup booking_type withKey).getD []) ++ [booking])
  let sp := st.budget_spent + (booking.total_cost.getD (booking.cost.getD 0))
  update_state_bookings_spent { st with bookings := bk, budget_spent := sp } bk sp

/-- The C7 scenario: a fresh session with budget 3000, then three
`add_booking` calls with the given categories and bookings. -/
def c7FinalState (cat1 cat2 cat3 : String) (b1 b2 b3 : BookingRecord) : TravelState :=
  add_booking
    (add_booking
      (add_booking (createSessionState "session-1" 3000) cat1 b1)
      cat2 b2)
    cat3 b3

/-- The keys of an association list are pairwise distinct (always true of a
list standing for a Python dict). -/
def keysNodup {α : Type} (m : List (String × α)) : Prop :=
  (m.map Prod.fst).Nodup

theorem keysNodup_setKey {α : Type} (m : List (String × α)) (k : String) (v : α)
    (h : keysNodup m) : keysNodup (setKey m k v) := by
  induction m with
  | nil => simp [keysNodup, setKey]
  | cons p rest ih =>
      obtain ⟨k₀, v₀⟩ := p
      simp only [keysNodup, List.map_cons, List.nodup_cons] at h
      by_cases hk : k₀ = k
      · subst hk
        simpa [keysNodup, setKey] using h
      · have hb : (k₀ == k) = false := by simp [hk]
        have tail := ih h.2
        simp only [setKey, hb, Bool.false_eq_true, if_false, keysNodup,
          List.map_cons, List.nodup_cons]
        refine ⟨?_, tail⟩
        intro hmem
        -- a key of `setKey rest k v` is a key of `rest` or `k` itself
        have hor : k₀ ∈ rest.map Prod.fst ∨ k₀ = k := by
          clear tail ih h
          induction rest with
          | nil =>
              simp only [setKey, List.map_cons, List.map_nil, List.mem_cons,
                List.not_mem_nil, or_false] at hmem
              exact Or.inr hmem
          | cons q rs ihr =>
              obtain ⟨k₁, v₁⟩ := q
              by_cases h1 : k₁ = k
              · subst h1
                simp only [setKey, beq_self_eq_true, if_true, List.map_cons,
                  List.mem_cons] at hmem
                rcases hmem with h2 | h2
                · exact Or.inr h2
                · exact Or.inl (List.mem_cons_of_mem _ h2)
              · have hb1 : (k₁ == k) = false := by simp [h1]
                simp only [setKey, hb1, Bool.false_eq_true, if_false,
                  List.map_cons, List.mem_cons] at hmem
                rcases hmem with h2 | h2
                · exact Or.inl (by simp [h2])
                · rcases ihr h2 with h3 | h3
                  · exact Or.inl (List.mem_cons_of_mem _ h3)
                  · exact Or.inr h3
        rcases hor with h2 | h2
        · exact h.1 h2
        · exact hk h2

theorem setKey_lookup_self {α : Type} (m : List (String × α)) (k : String) (v : α)
    (h : List.lookup k m = some v) : setKey m k v = m := by
  induction m with
  | nil => simp [List.lookup] at h
  | cons p rest ih =>
      obtain ⟨k₀, v₀⟩ := p
      by_cases hk : k = k₀
      · subst hk
        have : v₀ = v := by simpa [List.lookup] using h
        subst this
        simp [setKey]
      · have hb : (k == k₀) = false := by simp [hk]
        have hb' : (k₀ == k) = false := by simp [Ne.symm hk]
        simp only [List.lookup, hb] at h
        simp [setKey, hb', ih h]

theorem lookup_of_mem_keysNodup {α : Type} (m : List (String × α))
    (h : keysNodup m) (k : String) (v : α) (hmem : (k, v) ∈ m) :
    List.lookup k m = some v := by
  induction m with
  | nil => simp at hmem
  | cons p rest ih =>
      obtain ⟨k₀, v₀⟩ := p
      simp only [keysNodup, List.map_cons, List.nodup_cons] at h
      rcases List.mem_cons.mp hmem with h1 | h1
      · cases h1
        simp [List.lookup]
      · have hk : ¬ k = k₀ := by
          intro hkk
          subst hkk
          exact h.1 (List.mem_map_of_mem Prod.fst h1)
        have hb : (k == k₀) = false := by simp [hk]
        simp only [List.lookup, hb]
        exact ih h.2 h1

theorem mergeBookingsDict_self (m : List (String × List BookingRecord))
    (h : keysNodup m) : mergeBookingsDict m m = m := by
  have aux : ∀ (sub acc : List (String × List BookingRecord)),
      (∀ kv ∈ sub, List.lookup kv.1 acc = some kv.2) →
      sub.foldl (fun acc kv => setKey acc kv.1 kv.2) acc = acc := by
    intro sub
    induction sub with
    | nil => intro acc _; rfl
    | cons kv rest ih =>
        intro acc hall
        have hkv := hall kv (List.mem_cons_self kv rest)
        have step : setKey acc kv.1 kv.2 = acc := setKey_lookup_self acc kv.1 kv.2 hkv
        simp only [List.foldl_cons, step]
        exact ih acc (fun p hp => hall p (List.mem_cons_of_mem kv hp))
  exact aux m m (fun kv hkv => lookup_of_mem_keysNodup m h kv.1 kv.2 hkv)

/-! ## Itinerary specialist (`src/agents/itinerary/itinerary_agent_a2a.py`)

`check_scheduling_conflicts` sorts its bookings by the key
`(x.get("date", ""), x.get("time", "00:00"))` with Python's stable sort
(modelled by the stable `List.insertionSort`, which agrees with any stable
sort under a total preorder), then walks adjacent pairs.  `strptime` calls
are modelled by `dateOk` (the `"%Y-%m-%d"` pattern, calendar validity
included) and `parseHM` (the `"%H:%M"` pattern); a parse failure inside the
per-pair `try` block skips that pair's timing check, while a `KeyError`
raised when building a double-booking record (a booking without `date` or
`time`) escapes to the function-level handler, i.e. is an `Except.error`.
`strptime`'s tolerance of extra whitespace between the date and time parts
is not modelled (no claim involves times with leading blanks), and
`timedelta`'s microsecond rounding of fractional hours is modelled exactly
over `Rat`. -/

/-- A numeric field of 1–2 digit characters whose value is at most `bound`
(the regexes CPython compiles for `%H` and `%M`). -/
def fieldVal (cs : List Char) (bound : Nat) : Option Nat :=
  if cs ≠ [] ∧ cs.length ≤ 2 ∧ cs.all Char.isDigit then
    let v := cs.foldl (fun a c => 10 * a + (c.toNat - 48)) 0
    if v ≤ bound then some v else none
  else none

/-- Model of `datetime.strptime(t, "%H:%M")`, returning minutes since midnight:
exactly one `:`, an hour field `0–23`, a minute field `0–59`, nothing else. -/
def parseHM (t : String) : Option Nat :=
  match t.data.dropWhile (fun c => c ≠ ':') with
  | ':' :: mPart =>
      if mPart.contains ':' then none
      else
        match fieldVal (t.data.takeWhile (fun c => c ≠ ':')) 23, fieldVal mPart 59 with
        | some hv, some mv => some (60 * hv + mv)
        | _, _ => none
  | _ => none

/-- A non-empty all-digit field read as a number. -/
def digitsVal (cs : List Char) : Option Nat :=
  if cs ≠ [] ∧ cs.all Char.isDigit then
    some (cs.foldl (fun a c => 10 * a + (c.toNat - 48)) 0)
  else none

/-- Gregorian leap year, as `datetime` validates days. -/
def isLeapYear (y : Nat) : Bool :=
  y % 4 == 0 && (y % 100 != 0 || y % 400 == 0)

/-- Days in a month, as `datetime` validates days. -/
def daysInMonth (y m : Nat) : Nat :=
  if m = 2 then (if isLeapYear y then 29 else 28)
  else if m = 4 ∨ m = 6 ∨ m = 9 ∨ m = 11 then 30
  else 31

/-- Model of `datetime.strptime(d, "%Y-%m-%d")` succeeding: a 4-digit year ≥ 1
(`datetime.MINYEAR`), a 1–2 digit month `1–12`, a 1–2 digit day valid for
that month. -/
def dateOk (d : String) : Bool :=
  match d.data.splitOn '-' with
  | [ys, ms, ds] =>
      match digitsVal ys, digitsVal ms, digitsVal ds with
      | some y, some m, some dd =>
          ys.length == 4 && decide (1 ≤ y) &&
          decide (ms.length ≤ 2) && decide (1 ≤ m) && decide (m ≤ 12) &&
          decide (ds.length ≤ 2) && decide (1 ≤ dd) && decide (dd ≤ daysInMonth y m)
      | _, _, _ => false
  | _ => false

/-- A booking dict as `check_scheduling_conflicts` reads it (`.get` of an
absent key ↦ `none`; `name` is always read by direct indexing). -/
structure SchedBooking where
  name : String := ""
  date : Option String := none
  time : Option String := none
  duration_hours : Option Rat := none
deriving DecidableEq

/-- The sort key `(x.get("date", ""), x.get("time", "00:00"))`. -/
def conflictSortKey (b : SchedBooking) : String × String :=
  (b.date.getD "", b.time.getD "00:00")

/-- Python `str <`: strict lexicographic comparison of the code-point
sequences (stated over `String.data`, whose order is exactly that). -/
def pyStrLt (a b : String) : Prop := a.data < b.data

instance : DecidableRel pyStrLt := fun a b => by
  unfold pyStrLt
  infer_instance

/-- Python `tuple <=` on two (date, time) keys: lexicographic over the
code-point order on strings. -/
def keyLE (p q : String × String) : Prop :=
  pyStrLt p.1 q.1 ∨ (p.1 = q.1 ∧ (pyStrLt p.2 q.2 ∨ p.2 = q.2))

instance : DecidableRel keyLE := fun p q => by
  unfold keyLE
  infer_instance

/-- The comparison `sorted(bookings, key=...)` uses. -/
def bookingLE (a b : SchedBooking) : Prop :=
  keyLE (conflictSortKey a) (conflictSortKey b)

instance : DecidableRel bookingLE := fun a b => by
  unfold bookingLE
  infer_instance

/-- Model of `sorted(bookings, key=lambda x: (x.get("date", ""), x.get("time", "00:00")))`. -/
def sortBookings (bookings : List SchedBooking) : List SchedBooking :=
  List.insertionSort bookingLE bookings

/-- One conflict record of `check_scheduling_conflicts` (`time` appears only
on double bookings, as in the source's dict literals). -/
structure SchedConflict where
  type : String
  booking1 : String
  booking2 : String
  date : String
  time : Option String := none
  issue : String
  severity : String
deriving DecidableEq

/-- Python `int()` on a rational: truncation toward zero. -/
def ratTrunc (q : Rat) : Int :=
  if q < 0 then -((-q).floor) else q.floor

/-- Python truthiness of an optional string (`None` and `""` are falsy). -/
def truthyStr : Option String → Bool
  | none => false
  | some s => s != ""

/-- Python truthiness of an optional number (`None` and `0` are falsy). -/
def truthyRat : Option Rat → Bool
  | none => false
  | some q => q != 0

/-- The `try`-guarded timing check on one adjacent pair (already known to
share the same `date` value): runs only when the first booking's `time` and
`duration_hours` are truthy; any `strptime` failure or missing key inside the
`try` yields `none` (`except: pass`).  `time_diff` is the minutes between the
first booking's end (`start + duration`) and the second's start. -/
def timing_check (buffer : Int) (cur nxt : SchedBooking) : Option SchedConflict :=
  if truthyStr cur.time && truthyRat cur.duration_hours then
    match cur.date, cur.time, cur.duration_hours, nxt.date, nxt.time with
    | some d1, some t1, some dur, some d2, some t2 =>
        if dateOk d1 && (parseHM t1).isSome && dateOk d2 && (parseHM t2).isSome then
          let m1 : Rat := ((parseHM t1).getD 0 : Nat)
          let m2 : Rat := ((parseHM t2).getD 0 : Nat)
          let time_diff : Rat := m2 - (m1 + 60 * dur)
          if time_diff < (buffer : Rat) then
            some { type := "timing_conflict"
                   booking1 := cur.name
                   booking2 := nxt.name
                   date := d1
                   issue := "Only " ++ toString (ratTrunc time_diff) ++
                     " minutes between activities (need " ++ toString buffer ++ ")"
                   severity := if time_diff < 0 then "high" else "medium" }
          else none
        else none
    | _, _, _, _, _ => none
  else none

/-- The conflicts one adjacent pair contributes: nothing when the dates
differ (`x.get("date")` equality, `None == None` included); else the timing
conflict, and — when the `time` values are also equal — the double-booking
record, whose dict literal indexes `current["date"]` and `current["time"]`
directly and so raises `KeyError` when either is absent. -/
def pair_conflicts (buffer : Int) (cur nxt : SchedBooking) :
    Except String (List SchedConflict) :=
  if cur.date = nxt.date then
    let timingList := (timing_check buffer cur nxt).toList
    if cur.time = nxt.time then
      match cur.date, cur.time with
      | some d, some t =>
          .ok (timingList ++
            [{ type := "double_booking"
               booking1 := cur.name
               booking2 := nxt.name
               date := d
               time := some t
               issue := "Two bookings at the same time"
               severity := "high" }])
      | _, _ => .error "KeyError"
    else .ok timingList
  else .ok []

/-- The `for i in range(len(sorted_bookings) - 1)` walk over adjacent pairs;
the first uncaught exception aborts the whole call. -/
def conflictsLoop (buffer : Int) : List SchedBooking → Except String (List SchedConflict)
  | [] => .ok []
  | [_] => .ok []
  | a :: b :: rest => do
      let cs ← pair_conflicts buffer a b
      let more ← conflictsLoop buffer (b :: rest)
      pure (cs ++ more)

/-- Model of `check_scheduling_conflicts(bookings, buffer_minutes=30)`: sort, then
scan adjacent pairs.  The source wraps the conflict list into
`{"conflicts_found": len(conflicts), "conflicts": conflicts}`; the count is
the length of the returned list. -/
def check_scheduling_conflicts (bookings : List SchedBooking) (buffer : Int := 30) :
    Except String (List SchedConflict) :=
  conflictsLoop buffer (sortBookings bookings)

/-- An event of `compile_itinerary`'s per-day list, reduced to the fields the
sort touches (`time`, and `name` to tell events apart). -/
structure ItinEvent where
  time : String
  name : String
deriving DecidableEq

/-- Event construction inside `compile_itinerary`:
`"time": booking.get("time", "All day")`. -/
def eventOfBooking (b : SchedBooking) : ItinEvent :=
  { time := b.time.getD "All day", name := b.name }

/-- The per-day sort key of `compile_itinerary`:
`x["time"] if x["time"] != "All day" else "00:00"`. -/
def compileSortKey (e : ItinEvent) : String :=
  if e.time ≠ "All day" then e.time else "00:00"

/-- The comparison of `compile_itinerary`'s per-day
`day["events"].sort(key=...)`. -/
def eventLE (a b : ItinEvent) : Prop :=
  pyStrLt (compileSortKey a) (compileSortKey b) ∨ compileSortKey a = compileSortKey b

instance : DecidableRel eventLE := fun a b => by
  unfold eventLE
  infer_instance

/-- Model of `day["events"].sort(key=lambda x: x["time"] if x["time"] != "All day"
else "00:00")`. -/
def sortDayEvents (events : List ItinEvent) : List ItinEvent :=
  List.insertionSort eventLE events

/-! ## Theorems -/

/-- C9: with a limit of 5, a client making six calls inside one minute
bucket is allowed exactly on the first five and rejected on the sixth. -/
theorem rate_limit_boundary_c9 (clientId minuteKey : String) :
    rateCallResults [] clientId minuteKey 5 6 =
      [true, true, true, true, true, false] := by
  simp [rateCallResults, check_rate_limit, setKey, List.lookup]

/-- C10: the first `check_rate_limit` call of a client inside a fresh minute
bucket returns `true` for every limit, `0` included — the limit comparison
only applies from the second call of the bucket onward. -/
theorem rate_limit_first_call_c10 (st : RateLimits) (clientId minuteKey : String)
    (limit : Nat)
    (hfresh : List.lookup minuteKey ((List.lookup clientId st).getD []) = none) :
    (check_rate_limit st clientId minuteKey limit).1 = true := by
  simp [check_rate_limit, hfresh]

/-- Witness for C10 at limit 0: a fresh client's first call is allowed even
though the ceiling is zero. -/
theorem rate_limit_first_call_c10_witness :
    (check_rate_limit [] "client-a" "2025-01-01-12-00" 0).1 = true :=
  rate_limit_first_call_c10 [] "client-a" "2025-01-01-12-00" 0 rfl

/-- C3 counterexample: an arrival at 21:30 — strictly after 21:00 — passes
`validate_checkin_time` (the source compares only the hour component,
`arrival_time.hour > 21`), where the claim requires it to fail. -/
theorem checkin_2130_passes_c3 :
    validate_checkin_time "15:00" ⟨21, 30⟩ = (true, none) ∧
      21 * 60 + 30 > 21 * 60 := by
  exact ⟨rfl, by decide⟩

/-- C3 (amended): check-in-time validation fails exactly when the arrival's
hour component exceeds 21 — that is, for arrivals from 22:00 on; minutes are
ignored, so 21:30 passes. -/
theorem checkin_hour_boundary_c3 (hotelCheckin : String) (arrival : ArrivalTime) :
    (validate_checkin_time hotelCheckin arrival).1 = false ↔ 21 < arrival.hour := by
  unfold validate_checkin_time
  by_cases h : 21 < arrival.hour <;> simp [h]

/-- The loop `validateFrom` accepts exactly the orders in which every agent's
prerequisites are either already `completed` or occur earlier in the list. -/
theorem validateFrom_true_iff (order : List String) :
    ∀ completed : List String,
      (validateFrom completed order).1 = true ↔
        ∀ pre agent post, order = pre ++ agent :: post →
          ∀ d ∈ dependencyGraph agent, d ∈ completed ∨ d ∈ pre := by
  induction order with
  | nil =>
      intro completed
      simp only [validateFrom, true_iff]
      intro pre agent post heq
      exact absurd heq (by simp)
  | cons a rest ih =>
      intro completed
      simp only [validateFrom]
      by_cases hm : ((dependencyGraph a).filter
          (fun d => !(completed.contains d))).isEmpty
      · have hsub : ∀ d ∈ dependencyGraph a, d ∈ completed := by
          intro d hd
          by_contra hdc
          have hmem : d ∈ (dependencyGraph a).filter
              (fun d => !(completed.contains d)) :=
            List.mem_filter.mpr ⟨hd, by simpa using hdc⟩
          rw [List.isEmpty_iff] at hm
          rw [hm] at hmem
          simp at hmem
        rw [if_pos hm, ih (completed ++ [a])]
        constructor
        · intro h pre agent post heq d hd
          cases pre with
          | nil =>
              simp only [List.nil_append] at heq
              injection heq with h1 h2
              subst h1
              exact Or.inl (hsub d hd)
          | cons p ps =>
              simp only [List.cons_append] at heq
              injection heq with h1 h2
              subst h1
              rcases h ps agent post h2 d hd with hin | hin
              · rcases List.mem_append.mp hin with hin' | hin'
                · exact Or.inl hin'
                · refine Or.inr ?_
                  simp only [List.mem_singleton] at hin'
                  simp [hin']
              · exact Or.inr (List.mem_cons_of_mem _ hin)
        · intro h pre agent post heq d hd
          have := h (a :: pre) agent post (by simp [heq]) d hd
          rcases this with hin | hin
          · exact Or.inl (List.mem_append.mpr (Or.inl hin))
          · rcases List.mem_cons.mp hin with h1 | h1
            · subst h1
              exact Or.inl (List.mem_append.mpr (Or.inr (by simp)))
            · exact Or.inr h1
      · rw [if_neg hm]
        simp only [Bool.false_eq_true, false_iff]
        intro hall
        have hne : (dependencyGraph a).filter (fun d => !(completed.contains d)) ≠ [] := by
          intro h0
          rw [← List.isEmpty_iff] at h0
          exact hm h0
        rcases List.exists_mem_of_ne_nil _ hne with ⟨d, hdmem⟩
        have hd := List.mem_filter.mp hdmem
        have hnc : d ∉ completed := by simpa using hd.2
        rcases hall [] a rest (by simp) d hd.1 with h1 | h1
        · exact hnc h1
        · simp at h1

/-- The C1 scenario's tracker: one session, total budget 1000, spent 900. -/
def c1Tracker : List (String × BudgetEntry) :=
  [("default_session",
    { total_budget := 1000
      spent := 900
      breakdown := [("hotel", 0), ("transport", 0), ("activity", 0), ("other", 0)]
      currency := "USD" })]

/-- C1: on a tracker with total 1000 and spent 900, a 200 expense is rejected
in every category with reason `"Insufficient budget"` and remaining 100, the
tracker unchanged; a 90 expense is approved in every category with resulting
remaining 10; and in general (for a session with a positive total budget —
a zero total would make the approval branch's division raise in Python) an
expense is rejected exactly when its amount strictly exceeds
`total_budget - spent`, rejection always carrying that reason, that
remaining figure, and an unchanged tracker. -/
theorem budget_validate_c1 :
    (∀ expenseType : String,
        validate_expense c1Tracker expenseType 200 =
          (.rejected "Insufficient budget" 100 200, c1Tracker)) ∧
    (∀ expenseType : String,
        (validate_expense c1Tracker expenseType 90).1.approvedFlag = true ∧
        (validate_expense c1Tracker expenseType 90).1.remainingBudgetField = 10 ∧
        (validate_expense c1Tracker expenseType 90).2 = c1Tracker) ∧
    (∀ (tracker : List (String × BudgetEntry)) (entry : BudgetEntry)
        (expenseType : String) (amount : Rat),
        List.lookup "default_session" tracker = some entry →
        0 < entry.total_budget →
        (((validate_expense tracker expenseType amount).1.approvedFlag = false ↔
            amount > entry.total_budget - entry.spent) ∧
          ((validate_expense tracker expenseType amount).1.approvedFlag = false →
            (validate_expense tracker expenseType amount).1.reasonField =
              some "Insufficient budget" ∧
            (validate_expense tracker expenseType amount).1.remainingBudgetField =
              entry.total_budget - entry.spent) ∧
          (validate_expense tracker expenseType amount).2 = tracker)) := by
  refine ⟨?_, ?_, ?_⟩
  · intro expenseType
    norm_num [validate_expense, c1Tracker, List.lookup]
  · intro expenseType
    norm_num [validate_expense, c1Tracker, List.lookup,
      ValidationResult.approvedFlag, ValidationResult.remainingBudgetField]
  · intro tracker entry expenseType amount hlookup _hpos
    have htr : (List.lookup "default_session" tracker).isSome = true := by
      rw [hlookup]; rfl
    by_cases hamt : amount > entry.total_budget - entry.spent
    · simp [validate_expense, htr, hlookup, hamt,
        ValidationResult.approvedFlag, ValidationResult.reasonField,
        ValidationResult.remainingBudgetField]
    · simp [validate_expense, htr, hlookup, hamt,
        ValidationResult.approvedFlag, ValidationResult.reasonField,
        ValidationResult.remainingBudgetField]

/-- Witness for C1's general clause at the claim's own numbers: total 1000,
spent 900, a 200 expense in category `"hotel"` is rejected. -/
theorem budget_validate_c1_witness :
    (validate_expense c1Tracker "hotel" 200).1.approvedFlag = false ∧
    (validate_expense c1Tracker "hotel" 200).1.reasonField =
      some "Insufficient budget" ∧
    (validate_expense c1Tracker "hotel" 200).1.remainingBudgetField = 100 := by
  have h := budget_validate_c1.2.2 c1Tracker
    { total_budget := 1000
      spent := 900
      breakdown := [("hotel", 0), ("transport", 0), ("activity", 0), ("other", 0)]
      currency := "USD" }
    "hotel" 200 rfl (by norm_num)
  have hrej : (validate_expense c1Tracker "hotel" 200).1.approvedFlag = false :=
    h.1.mpr (by norm_num)
  exact ⟨hrej, (h.2.1 hrej).1, by rw [(h.2.1 hrej).2]; norm_num⟩

/-- C5 counterexample: a budget conflict with one affected agent but an empty
`suggested_resolutions` list makes `resolve_conflict` raise (`IndexError`)
instead of returning a resolution plan. -/
theorem budget_conflict_empty_resolutions_errors_c5 :
    resolve_conflict
        { conflict_type := "budget"
          affected_agents := ["hotel"]
          description := "Hotel price exceeds remaining budget"
          suggested_resolutions := []
          severity := 5 } =
      .error "IndexError: suggested_resolutions" := rfl

/-- C5 (amended): for a budget conflict with at least one affected agent
*and at least one suggested resolution*, `resolve_conflict` always returns
`can_resolve_automatically = true` with a single instruction telling the
first affected agent to `find_cheaper_alternative` under the first
resolution's `reduced_budget`; with an empty `suggested_resolutions` it
raises `IndexError` instead. -/
theorem budget_conflict_resolution_c5 (c : ConflictInfo) (agent : String)
    (restAgents : List String) (r : SuggestedResolution)
    (restRes : List SuggestedResolution)
    (htype : c.conflict_type = "budget")
    (hagents : c.affected_agents = agent :: restAgents)
    (hres : c.suggested_resolutions = r :: restRes) :
    resolve_conflict c =
      .ok { can_resolve_automatically := true
            instructions := [{ agent := agent
                               action := "find_cheaper_alternative"
                               max_budget := r.reduced_budget }]
            summary := "Requesting cheaper options from " ++ agent
            requires_human := false } := by
  unfold resolve_conflict
  rw [htype]
  unfold resolveBudgetConflict
  rw [hagents, hres]
  rfl

/-- Witness for C5's amended clause: a concrete budget conflict with one
agent and one suggested resolution resolves automatically. -/
theorem budget_conflict_resolution_c5_witness :
    resolve_conflict
        { conflict_type := "budget"
          affected_agents := ["hotel"]
          description := "Hotel price exceeds remaining budget"
          suggested_resolutions := [{ reduced_budget := some 800 }]
          severity := 5 } =
      .ok { can_resolve_automatically := true
            instructions := [{ agent := "hotel"
                               action := "find_cheaper_alternative"
                               max_budget := some 800 }]
            summary := "Requesting cheaper options from hotel"
            requires_human := false } :=
  budget_conflict_resolution_c5 _ "hotel" [] { reduced_budget := some 800 } []
    rfl rfl rfl

/-- C2: `add_conflict` does not append the new conflict exactly once — the
cached conflicts list and `update_state`'s update value are the same Python
object, so the `extend` merge doubles the whole list: every previously
present conflict is duplicated, and the new conflict appears twice.  On a
fresh session the conflicts list afterwards is `[c, c]`, not `[c]`. -/
theorem add_conflict_duplicates_c2 :
    (∀ (st : TravelState) (c : ConflictInfo),
        (add_conflict st c).conflicts =
          (st.conflicts ++ [c]) ++ (st.conflicts ++ [c])) ∧
    (∀ c : ConflictInfo,
        (add_conflict (createSessionState "session-1" 3000) c).conflicts = [c, c]) :=
  ⟨fun _ _ => rfl, fun _ => rfl⟩

/-- A fresh session's bookings map sends every key to the empty list
(`"hotels"`, `"transport"`, `"activities"` are bound to `[]`; anything else
is absent). -/
theorem createSession_lookup_getD (s : String) (bud : Rat) (k : String) :
    (List.lookup k (createSessionState s bud).bookings).getD [] = [] := by
  unfold createSessionState
  simp only [List.lookup]
  cases h1 : k == "hotels" <;> cases h2 : k == "transport" <;>
    cases h3 : k == "activities" <;> simp

/-- A fresh session's bookings map has distinct keys. -/
theorem keysNodup_createSession (s : String) (bud : Rat) :
    keysNodup (createSessionState s bud).bookings := by
  have hb : (createSessionState s bud).bookings =
      [("hotels", []), ("transport", []), ("activities", [])] := rfl
  rw [keysNodup, hb]
  decide

/-- Applying `add_booking` raises `budget_spent` by the booking's `total_cost`
(falling back to `cost`, then `0`). -/
theorem add_booking_budget_spent (st : TravelState) (bt : String) (b : BookingRecord) :
    (add_booking st bt b).budget_spent =
      st.budget_spent + b.total_cost.getD (b.cost.getD 0) := rfl

/-- Applying `add_booking` leaves `budget_limit` unchanged. -/
theorem add_booking_budget_limit (st : TravelState) (bt : String) (b : BookingRecord) :
    (add_booking st bt b).budget_limit = st.budget_limit := rfl

/-- The bookings map after `add_booking`: the booking's own category gains
`b` at the end of its list (an absent category is first bound to `[]`), every
other key is untouched — the `dict`-valued merge in `update_state` is the
identity here because the cached map and the update value are one object. -/
theorem add_booking_lookup (st : TravelState) (bt : String) (b : BookingRecord)
    (h : keysNodup st.bookings) (k : String) :
    (List.lookup k (add_booking st bt b).bookings).getD [] =
      if k == bt then ((List.lookup bt st.bookings).getD []) ++ [b]
      else (List.lookup k st.bookings).getD [] := by
  unfold add_booking update_state_bookings_spent
  simp only
  have hnodupW : keysNodup (if (List.lookup bt st.bookings).isSome then st.bookings
      else setKey st.bookings bt []) := by
    split
    · exact h
    · exact keysNodup_setKey _ _ _ h
  rw [mergeBookingsDict_self _ (keysNodup_setKey _ _ _ hnodupW)]
  rw [lookup_setKey]
  rcases hsome : List.lookup bt st.bookings with _ | v
  · by_cases hk : k = bt
    · have hb : (k == bt) = true := by simp [hk]
      simp [hb, lookup_setKey]
    · have hb : (k == bt) = false := by simp [hk]
      simp [hb, lookup_setKey]
  · by_cases hk : k = bt
    · have hb : (k == bt) = true := by simp [hk]
      simp [hb, hsome]
    · have hb : (k == bt) = false := by simp [hk]
      simp [hb]

/-- Applying `add_booking` keeps the bookings map's keys distinct. -/
theorem keysNodup_add_booking (st : TravelState) (bt : String) (b : BookingRecord)
    (h : keysNodup st.bookings) : keysNodup (add_booking st bt b).bookings := by
  unfold add_booking update_state_bookings_spent
  simp only
  have hnodupW : keysNodup (if (List.lookup bt st.bookings).isSome then st.bookings
      else setKey st.bookings bt []) := by
    split
    · exact h
    · exact keysNodup_setKey _ _ _ h
  have hnodupBk := keysNodup_setKey _ bt
    (((List.lookup bt (if (List.lookup bt st.bookings).isSome then st.bookings
        else setKey st.bookings bt [])).getD []) ++ [b]) hnodupW
  rw [mergeBookingsDict_self _ hnodupBk]
  exact hnodupBk

/-- C7: from a fresh session with budget limit 3000 and 0 spent, three
`add_booking` calls with total costs 500, 300 and 200 (under any categories)
leave `budget_spent = 1000`, and the bookings map holds exactly those three
bookings, each exactly once under the category it was added with. -/
theorem session_budget_accounting_c7 (cat1 cat2 cat3 : String)
    (b1 b2 b3 : BookingRecord)
    (h1 : b1.total_cost = some 500) (h2 : b2.total_cost = some 300)
    (h3 : b3.total_cost = some 200) :
    (c7FinalState cat1 cat2 cat3 b1 b2 b3).budget_limit = 3000 ∧
    (c7FinalState cat1 cat2 cat3 b1 b2 b3).budget_spent = 1000 ∧
    ∀ k : String,
      (List.lookup k (c7FinalState cat1 cat2 cat3 b1 b2 b3).bookings).getD [] =
        ([(cat1, b1), (cat2, b2), (cat3, b3)].filter (fun p => k == p.1)).map
          Prod.snd := by
  have hn0 := keysNodup_createSession "session-1" 3000
  have hn1 := keysNodup_add_booking (createSessionState "session-1" 3000) cat1 b1 hn0
  have hn2 := keysNodup_add_booking _ cat2 b2 hn1
  refine ⟨rfl, ?_, ?_⟩
  · show (c7FinalState cat1 cat2 cat3 b1 b2 b3).budget_spent = 1000
    rw [c7FinalState, add_booking_budget_spent, add_booking_budget_spent,
      add_booking_budget_spent, h1, h2, h3]
    norm_num [createSessionState]
  · intro k
    simp only [c7FinalState, add_booking_lookup _ _ _ hn2,
      add_booking_lookup _ _ _ hn1, add_booking_lookup _ _ _ hn0,
      createSession_lookup_getD, List.filter_cons, List.filter_nil,
      List.map_cons, List.map_nil]
    by_cases e3 : k = cat3 <;> by_cases e2 : k = cat2 <;> by_cases e1 : k = cat1 <;>
      simp_all [beq_iff_eq]

/-- A successful `fieldVal` read means the characters were non-empty and all
digits. -/
theorem fieldVal_shape (cs : List Char) (bound v : Nat)
    (h : fieldVal cs bound = some v) :
    cs ≠ [] ∧ cs.all Char.isDigit = true := by
  unfold fieldVal at h
  split_ifs at h with h1
  · exact ⟨h1.1, h1.2.2⟩

/-- A string `"%H:%M"` accepts starts with a digit character. -/
theorem parseHM_shape (t : String) (n : Nat) (h : parseHM t = some n) :
    ∃ c cs, t.data = c :: cs ∧ c.isDigit = true := by
  unfold parseHM at h
  split at h
  next mPart heq =>
    split_ifs at h with hcont
    rcases hfv' : fieldVal (t.data.takeWhile (fun c => c ≠ ':')) 23 with _ | hv
    · rw [hfv'] at h
      simp at h
    · obtain ⟨hne, hdig⟩ := fieldVal_shape _ _ _ hfv'
      rcases htake : t.data.takeWhile (fun c => c ≠ ':') with _ | ⟨c, cs⟩
      · rw [htake] at hne
        exact absurd rfl hne
      · refine ⟨c, cs ++ t.data.dropWhile (fun c => decide (c ≠ ':')), ?_, ?_⟩
        · have hsplit := List.takeWhile_append_dropWhile
            (p := fun c => decide (c ≠ ':')) (l := t.data)
          conv_lhs => rw [← hsplit]
          rw [htake]
          simp
        · rw [htake] at hdig
          simp only [List.all_cons, Bool.and_eq_true] at hdig
          exact hdig.1
  next heq =>
    simp at h

/-- A string `"%H:%M"` accepts is non-empty (Python-truthy). -/
theorem parseHM_ne_empty (t : String) (n : Nat) (h : parseHM t = some n) : t ≠ "" := by
  obtain ⟨c, cs, hdata, _⟩ := parseHM_shape t n h
  intro he
  rw [he] at hdata
  simp at hdata

/-- Every digit character precedes `'A'` in code-point order. -/
theorem digit_lt_A (c : Char) (h : c.isDigit = true) : c < 'A' := by
  rw [Char.lt_def]
  simp [Char.isDigit] at h
  show c.val.toNat < ('A' : Char).val.toNat
  have h2 : c.val.toNat ≤ 57 := h.2
  have h3 : ('A' : Char).val.toNat = 65 := rfl
  omega

/-- Every string `"%H:%M"` accepts compares lexically below `"All day"`
(its first character is a digit, and every digit precedes `'A'`). -/
theorem parseHM_lt_allday (t : String) (n : Nat) (h : parseHM t = some n) :
    pyStrLt t "All day" := by
  obtain ⟨c, cs, hdata, hdig⟩ := parseHM_shape t n h
  unfold pyStrLt
  rw [hdata, show ("All day" : String).data = 'A' :: "ll day".data from rfl]
  exact List.Lex.rel (digit_lt_A c hdig)

/-- A two-element list already in key order is left unchanged by the sort
(Python's `sorted` is stable; so is `List.insertionSort`). -/
theorem sortBookings_pair (b1 b2 : SchedBooking) (h : bookingLE b1 b2) :
    sortBookings [b1, b2] = [b1, b2] := by
  unfold sortBookings
  simp [List.insertionSort, List.orderedInsert, h]

/-- Evaluating `Except`'s bind on a success just applies the continuation. -/
theorem exceptBind_ok {ε α β : Type} (a : α) (f : α → Except ε β) :
    (Except.ok (ε := ε) a >>= f) = f a := rfl

/-- The adjacent-pair walk over fewer than two bookings finds nothing. -/
theorem conflictsLoop_single (buffer : Int) (b : SchedBooking) :
    conflictsLoop buffer [b] = .ok [] := rfl

/-- C4: in `check_scheduling_conflicts`, two bookings with the same date and
the same time are flagged as a `double_booking` of severity `"high"`; and two
same-date bookings with parseable times, the first carrying a (truthy)
duration, whose gap `start₂ − (start₁ + duration)` is below the buffer are
flagged as a `timing_conflict` whose severity is `"high"` exactly when that
gap is negative and `"medium"` otherwise.  (The first booking is the earlier
one under the sort key, as the source's adjacent-pair walk assumes.) -/
theorem scheduling_conflicts_c4 :
    (∀ (n1 n2 d t : String) (dur1 dur2 : Option Rat) (buffer : Int),
        ∃ cs, check_scheduling_conflicts
            [{ name := n1, date := some d, time := some t, duration_hours := dur1 },
             { name := n2, date := some d, time := some t, duration_hours := dur2 }]
            buffer = .ok cs ∧
          ({ type := "double_booking", booking1 := n1, booking2 := n2, date := d
             time := some t, issue := "Two bookings at the same time"
             severity := "high" } : SchedConflict) ∈ cs) ∧
    (∀ (n1 n2 d t1 t2 : String) (m1 m2 : Nat) (dur : Rat) (dur2 : Option Rat)
        (buffer : Int),
        parseHM t1 = some m1 → parseHM t2 = some m2 → dateOk d = true →
        dur ≠ 0 → (pyStrLt t1 t2 ∨ t1 = t2) →
        (m2 : Rat) - ((m1 : Rat) + 60 * dur) < (buffer : Rat) →
        ∃ cs, check_scheduling_conflicts
            [{ name := n1, date := some d, time := some t1, duration_hours := some dur },
             { name := n2, date := some d, time := some t2, duration_hours := dur2 }]
            buffer = .ok cs ∧
          ({ type := "timing_conflict", booking1 := n1, booking2 := n2, date := d
             issue := "Only " ++
               toString (ratTrunc ((m2 : Rat) - ((m1 : Rat) + 60 * dur))) ++
               " minutes between activities (need " ++ toString buffer ++ ")"
             severity := if (m2 : Rat) - ((m1 : Rat) + 60 * dur) < 0
               then "high" else "medium" } : SchedConflict) ∈ cs) := by
  constructor
  · intro n1 n2 d t dur1 dur2 buffer
    have hle : bookingLE
        { name := n1, date := some d, time := some t, duration_hours := dur1 }
        { name := n2, date := some d, time := some t, duration_hours := dur2 } :=
      Or.inr ⟨rfl, Or.inr rfl⟩
    refine ⟨(timing_check buffer
        { name := n1, date := some d, time := some t, duration_hours := dur1 }
        { name := n2, date := some d, time := some t, duration_hours := dur2 }).toList ++
      [{ type := "double_booking", booking1 := n1, booking2 := n2, date := d
         time := some t, issue := "Two bookings at the same time"
         severity := "high" }], ?_, by simp⟩
    rw [check_scheduling_conflicts, sortBookings_pair _ _ hle]
    show (do
        let cs ← pair_conflicts buffer _ _
        let more ← conflictsLoop buffer [_]
        pure (cs ++ more)) = Except.ok _
    rw [show pair_conflicts buffer
        { name := n1, date := some d, time := some t, duration_hours := dur1 }
        { name := n2, date := some d, time := some t, duration_hours := dur2 } =
      .ok ((timing_check buffer
        { name := n1, date := some d, time := some t, duration_hours := dur1 }
        { name := n2, date := some d, time := some t, duration_hours := dur2 }).toList ++
        [{ type := "double_booking", booking1 := n1, booking2 := n2, date := d
           time := some t, issue := "Two bookings at the same time"
           severity := "high" }]) from by
      unfold pair_conflicts
      rw [if_pos rfl, if_pos rfl]]
    simp [conflictsLoop]
    rfl
  · intro n1 n2 d t1 t2 m1 m2 dur dur2 buffer h1 h2 hd hdur hts hdiff
    have hne1 : t1 ≠ "" := parseHM_ne_empty t1 m1 h1
    have htc : timing_check buffer
        { name := n1, date := some d, time := some t1, duration_hours := some dur }
        { name := n2, date := some d, time := some t2, duration_hours := dur2 } =
        some { type := "timing_conflict", booking1 := n1, booking2 := n2, date := d
               issue := "Only " ++
                 toString (ratTrunc ((m2 : Rat) - ((m1 : Rat) + 60 * dur))) ++
                 " minutes between activities (need " ++ toString buffer ++ ")"
               severity := if (m2 : Rat) - ((m1 : Rat) + 60 * dur) < 0
                 then "high" else "medium" } := by
      unfold timing_check
      simp [truthyStr, truthyRat, hne1, hdur, hd, h1, h2, hdiff]
    have hle : bookingLE
        { name := n1, date := some d, time := some t1, duration_hours := some dur }
        { name := n2, date := some d, time := some t2, duration_hours := dur2 } :=
      Or.inr ⟨rfl, hts⟩
    rcases hts with hlt | heq
    · have hnet : ¬ (some t1 = some t2) := by
        intro hx
        injection hx with hx
        rw [hx] at hlt
        exact lt_irrefl _ hlt
      refine ⟨(timing_check buffer
          { name := n1, date := some d, time := some t1, duration_hours := some dur }
          { name := n2, date := some d, time := some t2,
            duration_hours := dur2 }).toList, ?_, ?_⟩
      · rw [check_scheduling_conflicts, sortBookings_pair _ _ hle]
        show (do
            let cs ← pair_conflicts buffer _ _
            let more ← conflictsLoop buffer [_]
            pure (cs ++ more)) = Except.ok _
        rw [show pair_conflicts buffer
            { name := n1, date := some d, time := some t1, duration_hours := some dur }
            { name := n2, date := some d, time := some t2, duration_hours := dur2 } =
          .ok ((timing_check buffer
            { name := n1, date := some d, time := some t1, duration_hours := some dur }
            { name := n2, date := some d, time := some t2,
              duration_hours := dur2 }).toList) from by
          unfold pair_conflicts
          rw [if_pos rfl, if_neg hnet]]
        simp [conflictsLoop]
        rfl
      · rw [htc]
        simp
    · subst heq
      refine ⟨(timing_check buffer
          { name := n1, date := some d, time := some t1, duration_hours := some dur }
          { name := n2, date := some d, time := some t1,
            duration_hours := dur2 }).toList ++
        [{ type := "double_booking", booking1 := n1, booking2 := n2, date := d
           time := some t1, issue := "Two bookings at the same time"
           severity := "high" }], ?_, ?_⟩
      · rw [check_scheduling_conflicts, sortBookings_pair _ _ hle]
        show (do
            let cs ← pair_conflicts buffer _ _
            let more ← conflictsLoop buffer [_]
            pure (cs ++ more)) = Except.ok _
        rw [show pair_conflicts buffer
            { name := n1, date := some d, time := some t1, duration_hours := some dur }
            { name := n2, date := some d, time := some t1, duration_hours := dur2 } =
          .ok ((timing_check buffer
            { name := n1, date := some d, time := some t1, duration_hours := some dur }
            { name := n2, date := some d, time := some t1,
              duration_hours := dur2 }).toList ++
            [{ type := "double_booking", booking1 := n1, booking2 := n2, date := d
               time := some t1, issue := "Two bookings at the same time"
               severity := "high" }]) from by
          unfold pair_conflicts
          rw [if_pos rfl, if_pos rfl]]
        simp [conflictsLoop]
        rfl
      · rw [htc]
        simp

/-- C6: the itinerary compiler's per-day sort key is literally "the time if
it is not `"All day"`, else `"00:00"`" (an event built from a booking without
a time is marked `"All day"` and so sorts at `"00:00"`), while the conflict
checker's `(date, time)` key substitutes `"00:00"` only for a *missing* time:
an explicit `"All day"` is compared lexically as the substring `"All day"`
itself, which sorts strictly after every real `HH:MM` string (digits precede
`'A'` in code-point order) — so in the conflict checker's order an all-day
booking interleaves after its date's timed bookings (concrete instances:
the all-day fair lands between the timed tour and the next day's flight,
whereas the compiler's per-day sort puts the all-day festival first). -/
theorem allday_sort_keys_c6 :
    (∀ e : ItinEvent, e.time = "All day" → compileSortKey e = "00:00") ∧
    (∀ e : ItinEvent, e.time ≠ "All day" → compileSortKey e = e.time) ∧
    (∀ b : SchedBooking, b.time = none → (eventOfBooking b).time = "All day") ∧
    (∀ b : SchedBooking, b.time = some "All day" →
        conflictSortKey b = (b.date.getD "", "All day")) ∧
    (∀ (d t : String) (n : Nat), parseHM t = some n →
        keyLE (d, t) (d, "All day") ∧ ¬ keyLE (d, "All day") (d, t)) ∧
    sortBookings
        [{ name := "flight", date := some "2025-06-02", time := some "09:00" },
         { name := "fair", date := some "2025-06-01", time := some "All day" },
         { name := "tour", date := some "2025-06-01", time := some "10:00" }] =
      [{ name := "tour", date := some "2025-06-01", time := some "10:00" },
       { name := "fair", date := some "2025-06-01", time := some "All day" },
       { name := "flight", date := some "2025-06-02", time := some "09:00" }] ∧
    sortDayEvents [{ time := "09:00", name := "breakfast" },
        { time := "All day", name := "festival" }] =
      [{ time := "All day", name := "festival" },
       { time := "09:00", name := "breakfast" }] := by
  refine ⟨?_, ?_, ?_, ?_, ?_, ?_, ?_⟩
  · intro e he
    simp [compileSortKey, he]
  · intro e he
    simp [compileSortKey, he]
  · intro b hb
    simp [eventOfBooking, hb]
  · intro b hb
    simp [conflictSortKey, hb]
  · intro d t n h
    have hlt := parseHM_lt_allday t n h
    constructor
    · exact Or.inr ⟨rfl, Or.inl hlt⟩
    · intro hk
      rcases hk with h1 | ⟨_, h3 | h4⟩
      · exact lt_irrefl _ h1
      · exact (lt_asymm hlt) h3
      · have h4' : "All day" = t := h4
        rw [← h4'] at hlt
        exact lt_irrefl _ hlt
  · decide
  · decide

/-- Witness for C6's universal clauses: a concrete all-day event keys at
`"00:00"` in the compiler, while a concrete all-day booking keeps the literal
`"All day"` in the conflict checker and sorts after the timed `"09:00"`. -/
theorem allday_sort_keys_c6_witness :
    compileSortKey { time := "All day", name := "festival" } = "00:00" ∧
    conflictSortKey { name := "fair", date := some "2025-06-01", time := some "All day" } = ("2025-06-01", "All day") ∧
    keyLE ("2025-06-01", "09:00") ("2025-06-01", "All day") ∧
    ¬ keyLE ("2025-06-01", "All day") ("2025-06-01", "09:00") := by
  refine ⟨allday_sort_keys_c6.1 _ rfl, allday_sort_keys_c6.2.2.2.1 _ rfl, ?_, ?_⟩
  · exact (allday_sort_keys_c6.2.2.2.2.1 "2025-06-01" "09:00" 540 rfl).1
  · exact (allday_sort_keys_c6.2.2.2.2.1 "2025-06-01" "09:00" 540 rfl).2

/-- Witness for C7 at the standard categories: three concrete bookings of
costs 500, 300, 200 under `"hotels"`, `"transport"`, `"activities"`. -/
theorem session_budget_accounting_c7_witness :
    (c7FinalState "hotels" "transport" "activities"
        { name := "h", total_cost := some 500 }
        { name := "t", total_cost := some 300 }
        { name := "a", total_cost := some 200 }).budget_spent = 1000 ∧
    (List.lookup "hotels" (c7FinalState "hotels" "transport" "activities"
        { name := "h", total_cost := some 500 }
        { name := "t", total_cost := some 300 }
        { name := "a", total_cost := some 200 }).bookings).getD [] =
      [{ name := "h", total_cost := some 500 }] := by
  have h := session_budget_accounting_c7 "hotels" "transport" "activities"
    { name := "h", total_cost := some 500 }
    { name := "t", total_cost := some 300 }
    { name := "a", total_cost := some 200 } rfl rfl rfl
  refine ⟨h.2.1, ?_⟩
  rw [h.2.2 "hotels"]
  rfl

/-- C8: `validate_completion_order` accepts
`[hotel, transport, budget, activity, itinerary]`, rejects
`[itinerary, hotel, transport, activity, budget]` reporting itinerary's
missing prerequisites, and in general returns valid exactly when every agent
in the sequence appears after all of its prerequisites in the fixed
dependency graph. -/
theorem dependency_order_c8 :
    validate_completion_order ["hotel", "transport", "budget", "activity", "itinerary"]
        = (true, none) ∧
    validate_completion_order ["itinerary", "hotel", "transport", "activity", "budget"]
        = (false, some ("itinerary", ["hotel", "transport", "activity"])) ∧
    ∀ order : List String,
      (validate_completion_order order).1 = true ↔
        ∀ pre agent post, order = pre ++ agent :: post →
          ∀ d ∈ dependencyGraph agent, d ∈ pre := by
  refine ⟨by decide, by decide, ?_⟩
  intro order
  rw [validate_completion_order, validateFrom_true_iff]
  constructor
  · intro h pre agent post heq d hd
    rcases h pre agent post heq d hd with h1 | h1
    · simp at h1
    · exact h1
  · intro h pre agent post heq d hd
    exact Or.inr (h pre agent post heq d hd)
